import Mathlib

/-!
Verification development for two leaf components of the embedchain repository:
the Elasticsearch vector-database adapter (`embedchain/vectordb/elasticsearch_db.py`)
and the YouTube transcript loader (`embedchain/loaders/youtube_video.py`).

The external Elasticsearch engine is shallowly modelled as an association list of
named indices; each index keeps the documents written to it (`stored`) and the
documents visible to searches (`visible`), so that the explicit refresh step of
`add` is observable.  Embedding vectors are lists of rationals; the engine's
cosine-similarity scoring function is kept abstract (a parameter `cosSim`),
since scoring internals belong to the external store.
-/

/-- Metadata mappings (Python dicts whose values matter here only as strings). -/
abbrev Meta := List (String × String)

/-- One document stored in an Elasticsearch index: `_id`, `_source.text`,
`_source.metadata`, `_source.embeddings`. -/
structure ESDoc where
  docId : String
  text : String
  metadata : Meta
  embeddings : List ℚ
deriving DecidableEq, Repr

/-- One Elasticsearch index.  `stored` holds every document written to the
index; `visible` holds the documents a search can see.  A refresh copies
`stored` into `visible` (glossary: "Refresh: an explicit operation forcing a
search engine to make recently written documents visible to subsequent
queries"). -/
structure ESIndex where
  stored : List ESDoc
  visible : List ESDoc
deriving DecidableEq, Repr

/-- The Elasticsearch cluster state: named indices. -/
abbrev ES := List (String × ESIndex)

/-- Model of `client.indices.exists(index=n)`. -/
def esIndicesExists (s : ES) (n : String) : Bool :=
  (s.lookup n).isSome

/-- Model of `client.indices.create(index=n, body=...)`: adds a fresh empty index. -/
def esIndicesCreate (s : ES) (n : String) : ES :=
  (n, ⟨[], []⟩) :: s

/-- Model of `client.indices.delete(index=n)`.  Deleting an absent index is an error in
the engine (`none`); the adapter's `reset` guards against it. -/
def esIndicesDelete (s : ES) (n : String) : Option ES :=
  if esIndicesExists s n then some (s.filter (fun p => !(p.1 == n))) else none

/-- Upsert one document into a document list by `_id`: an existing id is
overwritten in place, a new id is appended (upsert semantics of the bulk
write). -/
def upsertDoc (ds : List ESDoc) (d : ESDoc) : List ESDoc :=
  if ds.any (fun e => e.docId == d.docId) then
    ds.map (fun e => if e.docId == d.docId then d else e)
  else
    ds ++ [d]

/-- Replace the index named `n` in the store by `f` applied to it; if absent,
apply `f` to a fresh empty index and add it (the engine auto-creates an index
on write). -/
def esModifyIndex (s : ES) (n : String) (f : ESIndex → ESIndex) : ES :=
  if esIndicesExists s n then
    s.map (fun p => if p.1 == n then (p.1, f p.2) else p)
  else
    (n, f ⟨[], []⟩) :: s

/-- Model of `bulk(client, docs)`: upsert each record into the target index's stored
documents.  Visibility is unchanged until a refresh. -/
def esBulk (s : ES) (n : String) (docs : List ESDoc) : ES :=
  esModifyIndex s n (fun ix => { ix with stored := docs.foldl upsertDoc ix.stored })

/-- Model of `client.indices.refresh(index=n)`: make every stored document visible. -/
def esRefresh (s : ES) (n : String) : ES :=
  esModifyIndex s n (fun ix => { ix with visible := ix.stored })

/-- Documents a search on index `n` can see ([] when the index is absent). -/
def visibleDocs (s : ES) (n : String) : List ESDoc :=
  match s.lookup n with
  | some ix => ix.visible
  | none => []

/-- Documents written to index `n` ([] when the index is absent). -/
def storedDocs (s : ES) (n : String) : List ESDoc :=
  match s.lookup n with
  | some ix => ix.stored
  | none => []

/-- Number of indices named `n` in the store. -/
def countKey (s : ES) (n : String) : Nat :=
  (s.filter (fun p => p.1 == n)).length

/-- One clause of a `bool.must` array, as assembled by the adapter. -/
inductive MustClause where
  | idsClause (values : List String)
  | termAppId (value : String)
  | existsText
deriving DecidableEq, Repr

/-- Whether a document matches one `bool.must` clause.  Every document written
by this adapter carries a `text` field, so the `exists text` clause holds. -/
def matchesClause (d : ESDoc) : MustClause → Bool
  | .idsClause values => values.contains d.docId
  | .termAppId value => d.metadata.lookup "app_id" == some value
  | .existsText => true

/-- Whether a document matches a whole `bool.must` array. -/
def matchesMust (must : List MustClause) (d : ESDoc) : Bool :=
  must.all (matchesClause d)

/-- Configuration `ElasticsearchDBConfig`: connection URL (extra client parameters carry no
semantics in this model). -/
structure ESConfig where
  ES_URL : String
deriving DecidableEq, Repr

/-- The caller-supplied embedding function: one embedding per input text. -/
abbrev EmbeddingFn := List String → List (List ℚ)

/-- The adapter: `ElasticsearchDB` after a successful `__init__`. -/
structure ElasticsearchDB where
  embedding_fn : EmbeddingFn
  vector_dim : Nat
  es_index : String

/-- The composite index identifier `f"{collection_name}_{self.vector_dim}"`. -/
def esIndexName (collection_name : String) (vector_dim : Nat) : String :=
  collection_name ++ "_" ++ toString vector_dim

/-- Constructor `ElasticsearchDB.__init__`.  Validation follows the source exactly: a
missing embedding function, a missing config, a missing vector dimension or a
missing (`None`) collection name raise; then the index is created only when it
does not already exist.  Note the source checks `collection_name is None`, so
an empty string passes validation. -/
def ElasticsearchDB.init (es_config : Option ESConfig) (embedding_fn : Option EmbeddingFn)
    (vector_dim : Option Nat) (collection_name : Option String) (s : ES) :
    Except String (ElasticsearchDB × ES) :=
  match embedding_fn with
  | none => .error "Embedding function is not a function"
  | some f =>
    match es_config with
    | none => .error "ElasticsearchDBConfig is required"
    | some _ =>
      match vector_dim with
      | none => .error "Vector Dimension is required to refer correct index and mapping"
      | some dim =>
        match collection_name with
        | none => .error "collection name is required. It cannot be empty"
        | some name =>
          let idx := esIndexName name dim
          let s1 := if esIndicesExists s idx then s else esIndicesCreate s idx
          .ok (⟨f, dim, idx⟩, s1)

/-- Request body of `ElasticsearchDB.get`: the `bool.must` array is `[ids values]`, with the
`term metadata.app_id` clause appended when the filter carries `app_id`. -/
def getMust (ids : List String) (w : Meta) : List MustClause :=
  match w.lookup "app_id" with
  | some app_id => [.idsClause ids, .termAppId app_id]
  | none => [.idsClause ids]

/-- Operation `ElasticsearchDB.get`: search the index for the given ids (optionally
filtered by `app_id`) and return the set of ids found. -/
def ElasticsearchDB.get (db : ElasticsearchDB) (s : ES) (ids : List String) (w : Meta) :
    Finset String :=
  let hits := (visibleDocs s db.es_index).filter (matchesMust (getMust ids w))
  (hits.map ESDoc.docId).toFinset

/-- Model of `zip(ids, documents, metadatas, embeddings)`: Python `zip` truncates to the
shortest input. -/
def zip4 {α β γ δ : Type} : List α → List β → List γ → List δ → List (α × β × γ × δ)
  | a :: as, b :: bs, c :: cs, d :: ds => (a, b, c, d) :: zip4 as bs cs ds
  | _, _, _, _ => []

/-- The records `ElasticsearchDB.add` submits to the bulk write: one per
position of `zip(ids, documents, metadatas, embeddings)` where
`embeddings = embedding_fn(documents)`. -/
def ElasticsearchDB.addDocs (db : ElasticsearchDB) (documents : List String)
    (metadatas : List Meta) (ids : List String) : List ESDoc :=
  let embeddings := db.embedding_fn documents
  (zip4 ids documents metadatas embeddings).map
    (fun q => ⟨q.1, q.2.1, q.2.2.1, q.2.2.2⟩)

/-- Operation `ElasticsearchDB.add`: embed the batch, bulk-write the records, then
refresh the index so the writes are immediately visible. -/
def ElasticsearchDB.add (db : ElasticsearchDB) (s : ES) (documents : List String)
    (metadatas : List Meta) (ids : List String) : ES :=
  esRefresh (esBulk s db.es_index (db.addDocs documents metadatas ids)) db.es_index

/-- The `script_score` request body assembled by `ElasticsearchDB.query`: the
restriction clause (`bool.must`) and the query vector fed to the script. -/
structure ScriptScoreQuery where
  must : List MustClause
  queryVector : List ℚ
deriving DecidableEq, Repr

/-- The `bool.must` array of the similarity query: the default
`[exists text]` clause, replaced outright by `[term metadata.app_id]` when the
filter carries `app_id` (the source assigns, not appends). -/
def queryMust (w : Meta) : List MustClause :=
  match w.lookup "app_id" with
  | some app_id => [.termAppId app_id]
  | none => [.existsText]

/-- The request body of `ElasticsearchDB.query`: the embedding of the whole
input list is computed, but only entry `[0]` becomes the query vector
(`none` models the IndexError when there is no entry `[0]`). -/
def ElasticsearchDB.queryPayload (db : ElasticsearchDB) (input_query : List String)
    (w : Meta) : Option ScriptScoreQuery :=
  match (db.embedding_fn input_query).get? 0 with
  | some query_vector => some ⟨queryMust w, query_vector⟩
  | none => none

/-- The score the engine's script assigns a document:
`cosineSimilarity(params.input_query_vector, 'embeddings') + 1.0`, with the
cosine-similarity primitive `cosSim` abstract (it is internal to the store). -/
def scriptScore (cosSim : List ℚ → List ℚ → ℚ) (queryVector : List ℚ) (d : ESDoc) : ℚ :=
  cosSim queryVector d.embeddings + 1

/-- Descending-score document order used by the store when returning hits. -/
def scoreGE (cosSim : List ℚ → List ℚ → ℚ) (queryVector : List ℚ) (a b : ESDoc) : Prop :=
  scriptScore cosSim queryVector b ≤ scriptScore cosSim queryVector a

instance (cosSim : List ℚ → List ℚ → ℚ) (qv : List ℚ) :
    DecidableRel (scoreGE cosSim qv) :=
  fun a b =>
    inferInstanceAs (Decidable (scriptScore cosSim qv b ≤ scriptScore cosSim qv a))

instance (cosSim : List ℚ → List ℚ → ℚ) (qv : List ℚ) :
    IsTotal ESDoc (scoreGE cosSim qv) :=
  ⟨fun a b => le_total (scriptScore cosSim qv b) (scriptScore cosSim qv a)⟩

instance (cosSim : List ℚ → List ℚ → ℚ) (qv : List ℚ) :
    IsTrans ESDoc (scoreGE cosSim qv) :=
  ⟨fun _ _ _ hab hbc => le_trans hbc hab⟩

/-- The visible documents of index `n` that match the query's `bool.must`. -/
def queryCandidates (s : ES) (n : String) (p : ScriptScoreQuery) : List ESDoc :=
  (visibleDocs s n).filter (matchesMust p.must)

/-- The store's answer to a `script_score` search with `size=size`: the
matching visible documents, in descending script-score order, truncated to
`size` hits. -/
def esScriptScoreSearch (cosSim : List ℚ → List ℚ → ℚ) (s : ES) (n : String)
    (p : ScriptScoreQuery) (size : Nat) : List ESDoc :=
  ((queryCandidates s n p).insertionSort (scoreGE cosSim p.queryVector)).take size

/-- The hits `ElasticsearchDB.query` reads texts from. -/
def ElasticsearchDB.queryHits (db : ElasticsearchDB) (cosSim : List ℚ → List ℚ → ℚ)
    (s : ES) (input_query : List String) (n_results : Nat) (w : Meta) :
    Option (List ESDoc) :=
  (db.queryPayload input_query w).map
    (fun p => esScriptScoreSearch cosSim s db.es_index p n_results)

/-- Operation `ElasticsearchDB.query`: the `text` field of each hit, in store order. -/
def ElasticsearchDB.query (db : ElasticsearchDB) (cosSim : List ℚ → List ℚ → ℚ)
    (s : ES) (input_query : List String) (n_results : Nat) (w : Meta) :
    Option (List String) :=
  (db.queryHits cosSim s input_query n_results w).map (List.map ESDoc.text)

/-- Operation `ElasticsearchDB.count`: a `match_all` count over the index's searchable
documents (0 for an absent index). -/
def ElasticsearchDB.count (db : ElasticsearchDB) (s : ES) : Nat :=
  ((visibleDocs s db.es_index).filter (fun _ => true)).length

/-- Operation `ElasticsearchDB.reset`: delete the index only when it exists; the
unguarded engine delete (which errors on an absent index) is never reached
otherwise. -/
def ElasticsearchDB.reset (db : ElasticsearchDB) (s : ES) : Except String ES :=
  if esIndicesExists s db.es_index then
    match esIndicesDelete s db.es_index with
    | some s1 => .ok s1
    | none => .error "index_not_found_exception"
  else
    .ok s

/-- One document returned by the external transcript provider
(`YoutubeLoader.load()`): page content plus metadata. -/
structure LCDoc where
  page_content : String
  metadata : Meta
deriving DecidableEq, Repr

/-- The record shape `YoutubeVideoLoader.load_data` returns. -/
structure DocRecord where
  content : String
  meta_data : Meta
deriving DecidableEq, Repr

/-- Modelled from the spec: `embedchain.utils.clean_string` is not under
`src/`; the spec describes it as a deterministic, idempotent normalization
that collapses and trims whitespace.  Modelled as: split on whitespace,
drop empty fragments, rejoin with single spaces. -/
def clean_string (s : String) : String :=
  String.intercalate " " ((s.split Char.isWhitespace).filter (fun w => !w.isEmpty))

/-- Python dict assignment `meta_data[k] = v`: set the key, overwriting. -/
def metaSet (m : Meta) (k v : String) : Meta :=
  (k, v) :: m.filter (fun p => !(p.1 == k))

/-- Loader `YoutubeVideoLoader.load_data`, parameterised by the documents the external
provider returned for the url: zero documents raise, otherwise the first
document's cleaned content and metadata (with the url recorded under the fixed
key `"url"`) form the single returned record. -/
def YoutubeVideoLoader.load_data (provided : List LCDoc) (url : String) :
    Except String (List DocRecord) :=
  match provided with
  | [] => .error "No data found"
  | doc0 :: _ =>
    .ok [⟨clean_string doc0.page_content, metaSet doc0.metadata "url" url⟩]

theorem zip4_nil_right₁ {α β γ δ : Type} (as : List α) (cs : List γ) (ds : List δ) :
    zip4 as ([] : List β) cs ds = [] := by
  cases as <;> rfl

theorem zip4_nil_right₂ {α β γ δ : Type} (as : List α) (bs : List β) (ds : List δ) :
    zip4 as bs ([] : List γ) ds = [] := by
  cases as <;> cases bs <;> rfl

theorem zip4_nil_right₃ {α β γ δ : Type} (as : List α) (bs : List β) (cs : List γ) :
    zip4 as bs cs ([] : List δ) = [] := by
  cases as <;> cases bs <;> cases cs <;> rfl

theorem zip4_length {α β γ δ : Type} (as : List α) (bs : List β) (cs : List γ) (ds : List δ) :
    (zip4 as bs cs ds).length = min (min as.length bs.length) (min cs.length ds.length) := by
  induction as generalizing bs cs ds with
  | nil => simp [zip4]
  | cons a as ih =>
    cases bs with
    | nil => simp [zip4_nil_right₁]
    | cons b bs =>
      cases cs with
      | nil => simp [zip4_nil_right₂]
      | cons c cs =>
        cases ds with
        | nil => simp [zip4_nil_right₃]
        | cons d ds =>
          simp only [zip4, List.length_cons, ih]
          omega

theorem zip4_getElem? {α β γ δ : Type} (as : List α) (bs : List β) (cs : List γ) (ds : List δ)
    (i : Nat) (a : α) (b : β) (c : γ) (d : δ) :
    (zip4 as bs cs ds)[i]? = some (a, b, c, d) ↔
      as[i]? = some a ∧ bs[i]? = some b ∧ cs[i]? = some c ∧ ds[i]? = some d := by
  induction as generalizing bs cs ds i with
  | nil => simp [zip4]
  | cons a0 as ih =>
    cases bs with
    | nil => simp [zip4_nil_right₁]
    | cons b0 bs =>
      cases cs with
      | nil => simp [zip4_nil_right₂]
      | cons c0 cs =>
        cases ds with
        | nil => simp [zip4_nil_right₃]
        | cons d0 ds =>
          cases i with
          | zero => simp [zip4, and_assoc]
          | succ i => simpa [zip4] using ih bs cs ds i

theorem lookup_filter_self_none (s : ES) (n : String) :
    (s.filter (fun p => !(p.1 == n))).lookup n = none := by
  induction s with
  | nil => rfl
  | cons p s ih =>
    obtain ⟨k, v⟩ := p
    by_cases h : k = n
    · simp [List.filter_cons, h, ih]
    · have hb : (n == k) = false := by simp [Ne.symm h]
      simp [List.filter_cons, h, List.lookup, hb, ih]

/-- C4: `reset()` never errors (in particular when the index is already
absent, since the delete is guarded by an existence check), and `count()` on
the resulting state returns 0. -/
theorem reset_then_count_zero (db : ElasticsearchDB) (s : ES) :
    ∃ s1 : ES, db.reset s = Except.ok s1 ∧ db.count s1 = 0 := by
  unfold ElasticsearchDB.reset esIndicesDelete
  cases h : esIndicesExists s db.es_index with
  | true =>
    simp only [h, if_true]
    refine ⟨_, rfl, ?_⟩
    unfold ElasticsearchDB.count visibleDocs
    rw [lookup_filter_self_none]
    rfl
  | false =>
    simp only [h, Bool.false_eq_true, if_false]
    refine ⟨s, rfl, ?_⟩
    unfold ElasticsearchDB.count visibleDocs
    unfold esIndicesExists at h
    cases hl : s.lookup db.es_index with
    | none => rfl
    | some ix => rw [hl] at h; simp at h

/-- C5: whenever the filter carries an `app_id`, the similarity query's
restriction clause is exactly the app-id term filter; the default
`exists text` clause is absent (the source assigns the `must` array rather
than appending). -/
theorem query_filter_replaces_default (db : ElasticsearchDB) (input_query : List String)
    (w : Meta) (app_id : String) (p : ScriptScoreQuery)
    (hw : w.lookup "app_id" = some app_id)
    (hp : db.queryPayload input_query w = some p) :
    p.must = [MustClause.termAppId app_id] ∧ MustClause.existsText ∉ p.must := by
  unfold ElasticsearchDB.queryPayload at hp
  cases hg : (db.embedding_fn input_query).get? 0 with
  | none => rw [hg] at hp; exact absurd hp (by simp)
  | some qv =>
    rw [hg] at hp
    have hpv : p = ⟨queryMust w, qv⟩ := by
      cases hp; rfl
    subst hpv
    simp [queryMust, hw]

theorem query_filter_replaces_default_witness :
    (([("app_id", "X")] : Meta).lookup "app_id" = some "X"
        ∧ ElasticsearchDB.queryPayload ⟨fun ts => ts.map (fun _ => [1]), 1, "i_1"⟩
            ["q"] [("app_id", "X")]
          = some ⟨[MustClause.termAppId "X"], [1]⟩)
      ∧ (⟨[MustClause.termAppId "X"], [1]⟩ : ScriptScoreQuery).must
          = [MustClause.termAppId "X"]
        ∧ MustClause.existsText ∉ (⟨[MustClause.termAppId "X"], [1]⟩ : ScriptScoreQuery).must :=
  ⟨⟨rfl, rfl⟩,
    query_filter_replaces_default ⟨fun ts => ts.map (fun _ => [1]), 1, "i_1"⟩
      ["q"] [("app_id", "X")] "X" ⟨[MustClause.termAppId "X"], [1]⟩ rfl rfl⟩

/-- C10: `add` never fails on length mismatches; the bulk write receives
exactly `min` of the four sequence lengths (ids, texts, metadatas, embeddings)
records, paired positionally up to the shortest sequence, the excess silently
dropped. -/
theorem add_truncates_to_shortest (db : ElasticsearchDB) (s : ES)
    (documents : List String) (metadatas : List Meta) (ids : List String) :
    db.add s documents metadatas ids
        = esRefresh (esBulk s db.es_index (db.addDocs documents metadatas ids)) db.es_index
      ∧ (db.addDocs documents metadatas ids).length
          = min (min ids.length documents.length)
              (min metadatas.length (db.embedding_fn documents).length)
      ∧ ∀ (i : Nat) (a t : String) (m : Meta) (e : List ℚ),
          (db.addDocs documents metadatas ids)[i]? = some ⟨a, t, m, e⟩ ↔
            ids[i]? = some a ∧ documents[i]? = some t ∧ metadatas[i]? = some m
              ∧ (db.embedding_fn documents)[i]? = some e := by
  refine ⟨rfl, ?_, ?_⟩
  · unfold ElasticsearchDB.addDocs
    simp [zip4_length]
  · intro i a t m e
    unfold ElasticsearchDB.addDocs
    rw [List.getElem?_map, Option.map_eq_some']
    constructor
    · rintro ⟨⟨x1, x2, x3, x4⟩, hx, hmk⟩
      cases hmk
      exact (zip4_getElem? ids documents metadatas (db.embedding_fn documents) i _ _ _ _).mp hx
    · intro h
      exact ⟨(a, t, m, e),
        (zip4_getElem? ids documents metadatas (db.embedding_fn documents) i a t m e).mpr h,
        rfl⟩

/-- C8: a video reference for which the provider returns zero documents makes
`load_data` raise (model: return the error) and return no records. -/
theorem load_empty_raises (url : String) :
    YoutubeVideoLoader.load_data [] url = Except.error "No data found" := rfl

/-- C9: a video reference for which the provider returns at least one document
makes `load_data` return a single-element sequence whose one record carries
the original reference in its metadata under the fixed key `"url"`. -/
theorem load_nonempty_single_record (doc0 : LCDoc) (rest : List LCDoc) (url : String) :
    ∃ r : DocRecord, YoutubeVideoLoader.load_data (doc0 :: rest) url = Except.ok [r]
      ∧ r.meta_data.lookup "url" = some url := by
  refine ⟨_, rfl, ?_⟩
  simp [metaSet, List.lookup]

/-- C1 (code behavior at the failing input): the source validates
`collection_name is None` only, so a construction call with the empty-string
collection name and otherwise valid parameters succeeds instead of raising,
although the source's own error message reads "collection name is required.
It cannot be empty". -/
theorem init_accepts_empty_collection_name :
    ElasticsearchDB.init (some ⟨"localhost"⟩) (some (fun ts => ts.map (fun _ => [1])))
        (some 1536) (some "") []
      = Except.ok (⟨fun ts => ts.map (fun _ => [1]), 1536, "_1536"⟩,
          [("_1536", ⟨[], []⟩)]) := rfl

/-- C2: when the injected embedding function embeds each text independently
(one embedding per text, order preserving), only the first entry of the query
list influences the result of `query`; the remaining entries can be replaced
arbitrarily without changing the returned texts. -/
theorem query_uses_only_first_entry (db : ElasticsearchDB) (f : String → List ℚ)
    (cosSim : List ℚ → List ℚ → ℚ) (s : ES) (q : String) (rest rest' : List String)
    (n_results : Nat) (w : Meta)
    (hf : db.embedding_fn = fun ts => ts.map f) :
    db.query cosSim s (q :: rest) n_results w
      = db.query cosSim s (q :: rest') n_results w := by
  unfold ElasticsearchDB.query ElasticsearchDB.queryHits ElasticsearchDB.queryPayload
  rw [hf]
  simp [List.get?]

theorem query_uses_only_first_entry_witness :
    (ElasticsearchDB.embedding_fn ⟨fun ts => ts.map (fun _ => [1]), 1, "i_1"⟩
        = fun ts => ts.map (fun _ => ([1] : List ℚ)))
      ∧ ElasticsearchDB.query ⟨fun ts => ts.map (fun _ => [1]), 1, "i_1"⟩ (fun _ _ => 0)
          [] ["q", "r1"] 2 []
        = ElasticsearchDB.query ⟨fun ts => ts.map (fun _ => [1]), 1, "i_1"⟩ (fun _ _ => 0)
          [] ["q", "r2", "r3"] 2 [] :=
  ⟨rfl,
    query_uses_only_first_entry ⟨fun ts => ts.map (fun _ => [1]), 1, "i_1"⟩ (fun _ => [1])
      (fun _ _ => 0) [] "q" ["r1"] ["r2", "r3"] 2 [] rfl⟩

theorem countKey_zero_of_lookup_none (n : String) :
    ∀ s : ES, s.lookup n = none → countKey s n = 0 := by
  intro s
  induction s with
  | nil => intro _; rfl
  | cons p s ih =>
    obtain ⟨k, v⟩ := p
    intro h
    by_cases hk : k = n
    · subst hk
      simp [List.lookup] at h
    · have hb : (n == k) = false := beq_eq_false_iff_ne.mpr (Ne.symm hk)
      have hb2 : (k == n) = false := beq_eq_false_iff_ne.mpr hk
      simp only [List.lookup, hb] at h
      simp only [countKey, List.filter_cons, hb2, Bool.false_eq_true, if_false]
      exact ih h

theorem countKey_pos_of_lookup_isSome (n : String) :
    ∀ s : ES, (s.lookup n).isSome = true → 1 ≤ countKey s n := by
  intro s
  induction s with
  | nil => intro h; simp [List.lookup] at h
  | cons p s ih =>
    obtain ⟨k, v⟩ := p
    intro h
    by_cases hk : k = n
    · subst hk
      simp [countKey, List.filter_cons]
    · have hb : (n == k) = false := beq_eq_false_iff_ne.mpr (Ne.symm hk)
      have hb2 : (k == n) = false := beq_eq_false_iff_ne.mpr hk
      simp only [List.lookup, hb] at h
      simp only [countKey, List.filter_cons, hb2, Bool.false_eq_true, if_false]
      exact ih h

theorem countKey_create (s : ES) (n : String) :
    countKey (esIndicesCreate s n) n = countKey s n + 1 := by
  simp [countKey, esIndicesCreate, List.filter_cons]

theorem exists_create (s : ES) (n : String) :
    esIndicesExists (esIndicesCreate s n) n = true := by
  simp [esIndicesExists, esIndicesCreate, List.lookup]

/-- C6: a second construction with the same collection name and vector
dimension succeeds, performs no create (the store is returned unchanged), and
the store holds exactly one index under the derived identifier. -/
theorem init_idempotent (cfg : ESConfig) (f : EmbeddingFn) (dim : Nat) (name : String)
    (s s1 : ES) (db : ElasticsearchDB)
    (hkeys : countKey s (esIndexName name dim) ≤ 1)
    (h1 : ElasticsearchDB.init (some cfg) (some f) (some dim) (some name) s
      = Except.ok (db, s1)) :
    ElasticsearchDB.init (some cfg) (some f) (some dim) (some name) s1
        = Except.ok (db, s1)
      ∧ countKey s1 db.es_index = 1 := by
  simp only [ElasticsearchDB.init] at h1 ⊢
  rw [Except.ok.injEq, Prod.mk.injEq] at h1
  obtain ⟨hdb, hs1⟩ := h1
  cases hex : esIndicesExists s (esIndexName name dim) with
  | true =>
    have hs : s = s1 := by simpa [hex] using hs1
    subst hs
    subst hdb
    refine ⟨by simp [hex], ?_⟩
    have h1le := countKey_pos_of_lookup_isSome (esIndexName name dim) s hex
    show countKey s (esIndexName name dim) = 1
    omega
  | false =>
    have hs : esIndicesCreate s (esIndexName name dim) = s1 := by simpa [hex] using hs1
    subst hs
    subst hdb
    refine ⟨by simp [exists_create], ?_⟩
    rw [countKey_create]
    unfold esIndicesExists at hex
    rw [countKey_zero_of_lookup_none (esIndexName name dim) s
      (Option.not_isSome_iff_eq_none.mp (by rw [hex]; exact Bool.false_ne_true))]

theorem init_idempotent_witness :
    (countKey [] (esIndexName "c" 4) ≤ 1
        ∧ ElasticsearchDB.init (some ⟨"localhost"⟩) (some (fun ts => ts.map (fun _ => [1])))
            (some 4) (some "c") []
          = Except.ok (⟨fun ts => ts.map (fun _ => [1]), 4, "c_4"⟩, [("c_4", ⟨[], []⟩)]))
      ∧ ElasticsearchDB.init (some ⟨"localhost"⟩) (some (fun ts => ts.map (fun _ => [1])))
            (some 4) (some "c") [("c_4", ⟨[], []⟩)]
          = Except.ok (⟨fun ts => ts.map (fun _ => [1]), 4, "c_4"⟩, [("c_4", ⟨[], []⟩)])
        ∧ countKey [("c_4", ⟨[], []⟩)]
            (ElasticsearchDB.es_index ⟨fun ts => ts.map (fun _ => [1]), 4, "c_4"⟩) = 1 :=
  ⟨⟨by simp [countKey], rfl⟩,
    init_idempotent ⟨"localhost"⟩ (fun ts => ts.map (fun _ => [1])) 4 "c" []
      [("c_4", ⟨[], []⟩)] ⟨fun ts => ts.map (fun _ => [1]), 4, "c_4"⟩
      (by simp [countKey]) rfl⟩

/-- C7: the texts `query` returns are exactly the text fields of the store's
hits; the hits number at most `n_results`, each one is a visible document
matching the restriction clause, and they come in descending script-score
order. -/
theorem query_at_most_n_descending (db : ElasticsearchDB) (cosSim : List ℚ → List ℚ → ℚ)
    (s : ES) (input_query : List String) (n_results : Nat) (w : Meta) (p : ScriptScoreQuery)
    (hp : db.queryPayload input_query w = some p) :
    db.query cosSim s input_query n_results w
        = some ((esScriptScoreSearch cosSim s db.es_index p n_results).map ESDoc.text)
      ∧ (esScriptScoreSearch cosSim s db.es_index p n_results).length ≤ n_results
      ∧ List.Pairwise (scoreGE cosSim p.queryVector)
          (esScriptScoreSearch cosSim s db.es_index p n_results)
      ∧ ∀ d ∈ esScriptScoreSearch cosSim s db.es_index p n_results,
          d ∈ queryCandidates s db.es_index p := by
  refine ⟨?_, ?_, ?_, ?_⟩
  · unfold ElasticsearchDB.query ElasticsearchDB.queryHits
    rw [hp]
    rfl
  · unfold esScriptScoreSearch
    rw [List.length_take]
    exact min_le_left _ _
  · unfold esScriptScoreSearch
    have hs : List.Sorted (scoreGE cosSim p.queryVector)
        ((queryCandidates s db.es_index p).insertionSort (scoreGE cosSim p.queryVector)) :=
      List.sorted_insertionSort (scoreGE cosSim p.queryVector) (queryCandidates s db.es_index p)
    exact List.Pairwise.sublist (List.take_sublist _ _) hs
  · intro d hd
    unfold esScriptScoreSearch at hd
    have hd2 := (List.take_sublist _ _).mem hd
    exact (List.perm_insertionSort (scoreGE cosSim p.queryVector) _).mem_iff.mp hd2

theorem query_at_most_n_descending_witness :
    ElasticsearchDB.queryPayload ⟨fun ts => ts.map (fun _ => [1]), 1, "i_1"⟩ ["q"] []
        = some ⟨[MustClause.existsText], [1]⟩
      ∧ (ElasticsearchDB.query ⟨fun ts => ts.map (fun _ => [1]), 1, "i_1"⟩ (fun _ _ => 0)
            [("i_1", ⟨[], []⟩)] ["q"] 3 []
          = some ((esScriptScoreSearch (fun _ _ => 0) [("i_1", ⟨[], []⟩)] "i_1"
              ⟨[MustClause.existsText], [1]⟩ 3).map ESDoc.text)
        ∧ (esScriptScoreSearch (fun _ _ => 0) [("i_1", ⟨[], []⟩)] "i_1"
            ⟨[MustClause.existsText], [1]⟩ 3).length ≤ 3
        ∧ List.Pairwise (scoreGE (fun _ _ => 0) [1])
            (esScriptScoreSearch (fun _ _ => 0) [("i_1", ⟨[], []⟩)] "i_1"
              ⟨[MustClause.existsText], [1]⟩ 3)
        ∧ ∀ d ∈ esScriptScoreSearch (fun _ _ => 0) [("i_1", ⟨[], []⟩)] "i_1"
            ⟨[MustClause.existsText], [1]⟩ 3,
            d ∈ queryCandidates [("i_1", ⟨[], []⟩)] "i_1" ⟨[MustClause.existsText], [1]⟩) :=
  ⟨rfl,
    query_at_most_n_descending ⟨fun ts => ts.map (fun _ => [1]), 1, "i_1"⟩ (fun _ _ => 0)
      [("i_1", ⟨[], []⟩)] ["q"] 3 [] ⟨[MustClause.existsText], [1]⟩ rfl⟩

theorem lookup_map_modify (n : String) (f : ESIndex → ESIndex) :
    ∀ s : ES, (s.map (fun p => if p.1 == n then (p.1, f p.2) else p)).lookup n
      = (s.lookup n).map f := by
  intro s
  induction s with
  | nil => rfl
  | cons p s ih =>
    obtain ⟨k, v⟩ := p
    simp only [List.map_cons]
    by_cases hk : k = n
    · have hnk : (n == k) = true := by simp [hk]
      rw [if_pos (by simp [hk] : (((k, v).1 == n) = true))]
      simp only [List.lookup, hnk, Option.map_some']
    · have hb2 : (n == k) = false := beq_eq_false_iff_ne.mpr (Ne.symm hk)
      rw [if_neg (by simp [hk] : ¬(((k, v).1 == n) = true))]
      simp only [List.lookup, hb2]
      exact ih

theorem lookup_esModifyIndex (s : ES) (n : String) (f : ESIndex → ESIndex) :
    (esModifyIndex s n f).lookup n = some (f ((s.lookup n).getD ⟨[], []⟩)) := by
  unfold esModifyIndex esIndicesExists
  cases h : s.lookup n with
  | some ix =>
    rw [Option.isSome_some, if_pos rfl, lookup_map_modify, h]
    rfl
  | none =>
    rw [Option.isSome_none, if_neg Bool.false_ne_true]
    simp [List.lookup]

theorem visibleDocs_refresh (s : ES) (n : String) :
    visibleDocs (esRefresh s n) n = storedDocs s n := by
  unfold visibleDocs esRefresh storedDocs
  rw [lookup_esModifyIndex]
  cases s.lookup n <;> rfl

theorem storedDocs_bulk (s : ES) (n : String) (docs : List ESDoc) :
    storedDocs (esBulk s n docs) n = docs.foldl upsertDoc (storedDocs s n) := by
  unfold storedDocs esBulk
  rw [lookup_esModifyIndex]
  cases s.lookup n <;> rfl

theorem mem_docIds_upsert (L : List ESDoc) (d : ESDoc) (x : String) :
    x ∈ (upsertDoc L d).map ESDoc.docId ↔ x ∈ L.map ESDoc.docId ∨ x = d.docId := by
  unfold upsertDoc
  cases h : L.any (fun e => e.docId == d.docId) with
  | true =>
    have hmap : (L.map (fun e => if e.docId == d.docId then d else e)).map ESDoc.docId
        = L.map ESDoc.docId := by
      rw [List.map_map]
      apply List.map_congr_left
      intro e _
      by_cases he : e.docId = d.docId <;> simp [he]
    have hd : d.docId ∈ L.map ESDoc.docId := by
      obtain ⟨e, heL, heq⟩ := List.any_eq_true.mp h
      exact List.mem_map.mpr ⟨e, heL, (beq_iff_eq.mp heq)⟩
    simp only [h, if_pos, hmap]
    constructor
    · exact Or.inl
    · rintro (hx | rfl)
      · exact hx
      · exact hd
  | false =>
    simp only [h, Bool.false_eq_true, if_false, List.map_append, List.map_cons,
      List.map_nil, List.mem_append, List.mem_singleton]

theorem mem_get_ids (M : List ESDoc) (ids : List String) (x : String) :
    x ∈ (M.filter (matchesMust (getMust ids []))).map ESDoc.docId
      ↔ x ∈ M.map ESDoc.docId ∧ x ∈ ids := by
  constructor
  · intro hx
    obtain ⟨d, hd, rfl⟩ := List.mem_map.mp hx
    obtain ⟨hdM, hdok⟩ := List.mem_filter.mp hd
    have hdids : d.docId ∈ ids := by
      simpa [matchesMust, getMust, matchesClause, List.lookup] using hdok
    exact ⟨List.mem_map.mpr ⟨d, hdM, rfl⟩, hdids⟩
  · rintro ⟨hxM, hxids⟩
    obtain ⟨d, hdM, rfl⟩ := List.mem_map.mp hxM
    refine List.mem_map.mpr ⟨d, List.mem_filter.mpr ⟨hdM, ?_⟩, rfl⟩
    simpa [matchesMust, getMust, matchesClause, List.lookup] using hxids

/-- C3: after `add` of two texts under ids "a" and "b" (with the embedding
function producing one embedding per text) against a store whose target index
holds no document with id "c", an immediately following `get` over
["a","b","c"] with the empty filter returns exactly the id set with "a" and
"b": both just-added ids are visible thanks to the post-write refresh, and the
never-added id "c" is excluded. -/
theorem add_then_get_exact (db : ElasticsearchDB) (s : ES) (m1 m2 : Meta) (e1 e2 : List ℚ)
    (hemb : db.embedding_fn ["t1", "t2"] = [e1, e2])
    (hc : ∀ d ∈ storedDocs s db.es_index, d.docId ≠ "c") :
    db.get (db.add s ["t1", "t2"] [m1, m2] ["a", "b"]) ["a", "b", "c"] []
      = {"a", "b"} := by
  have haddDocs : db.addDocs ["t1", "t2"] [m1, m2] ["a", "b"]
      = [⟨"a", "t1", m1, e1⟩, ⟨"b", "t2", m2, e2⟩] := by
    unfold ElasticsearchDB.addDocs
    rw [hemb]
    rfl
  unfold ElasticsearchDB.get ElasticsearchDB.add
  rw [haddDocs]
  ext x
  simp only [visibleDocs_refresh, storedDocs_bulk, List.foldl_cons, List.foldl_nil,
    List.mem_toFinset, mem_get_ids, mem_docIds_upsert, Finset.mem_insert,
    Finset.mem_singleton, List.mem_cons, List.not_mem_nil, or_false]
  constructor
  · rintro ⟨hmem, hids⟩
    rcases hids with rfl | rfl | rfl
    · exact Or.inl rfl
    · exact Or.inr rfl
    · rcases hmem with (hL | h1) | h2
      · obtain ⟨d, hd, hdx⟩ := List.mem_map.mp hL
        exact absurd hdx (hc d hd)
      · exact absurd h1 (by decide)
      · exact absurd h2 (by decide)
  · rintro (rfl | rfl)
    · exact ⟨Or.inl (Or.inr rfl), Or.inl rfl⟩
    · exact ⟨Or.inr rfl, Or.inr (Or.inl rfl)⟩

theorem add_then_get_exact_witness :
    (ElasticsearchDB.embedding_fn ⟨fun ts => ts.map (fun _ => [1]), 1, "c_1"⟩ ["t1", "t2"]
        = [[1], [1]]
      ∧ ∀ d ∈ storedDocs []
          (ElasticsearchDB.es_index ⟨fun ts => ts.map (fun _ => [1]), 1, "c_1"⟩),
          d.docId ≠ "c")
      ∧ ElasticsearchDB.get ⟨fun ts => ts.map (fun _ => [1]), 1, "c_1"⟩
          (ElasticsearchDB.add ⟨fun ts => ts.map (fun _ => [1]), 1, "c_1"⟩ [] ["t1", "t2"]
            [[], []] ["a", "b"])
          ["a", "b", "c"] [] = {"a", "b"} :=
  ⟨⟨rfl, by simp [storedDocs, List.lookup]⟩,
    add_then_get_exact ⟨fun ts => ts.map (fun _ => [1]), 1, "c_1"⟩ [] [] [] [1] [1] rfl
      (by simp [storedDocs, List.lookup])⟩
